import Mathlib

/-!
Shallow embedding of `src/main.rs` of the `ioregistry_explorer` repository:
an egui application whose core is a single background worker task that
serializes device-facing commands (`IdeviceCommands`) and sends typed
results (`GuiCommands`) back to the UI over unbounded channels.

External collaborators (usbmuxd connection, lockdown client, diagnostics
relay client, file dialog, filesystem) are modelled as an explicit
environment of fallible calls (`IdeviceEnv`, `SaveEnv`).  A Rust `panic!`
or `.unwrap()` on a failed value is modelled by returning `none` from the
embedded function (type `Option _`), so `none` marks a crash of the
process.  Channels are FIFO by contract; a run of the worker over a list
of enqueued commands is the in-order concatenation of the per-command
emissions.
-/

namespace IoregExplorer

/-- Subset of `plist::Value` sufficient for the code, which only ever
destructures the `String` case and treats every other variant uniformly. -/
inductive Value where
  | string (s : String)
  | integer (n : Int)
  | boolean (b : Bool)
  | data (bytes : List Nat)
deriving DecidableEq, Repr

/-- Opaque handle for `idevice::usbmuxd::UsbmuxdDevice`; the code never
inspects it, only clones and forwards it. -/
structure UsbmuxdDevice where
  deviceId : Nat
deriving DecidableEq, Repr

/-- Opaque model of `idevice::IdeviceError`; the code only formats it, so
we retain just its debug rendering. -/
structure IdeviceError where
  detail : String
deriving DecidableEq, Repr

/-- Model of `plist::Dictionary`: string-keyed entries, lookup by key. -/
abbrev Dictionary := List (String × Value)

/-- Lookup in a `plist::Dictionary` (`values.get(key)` in the source). -/
def dictGet (d : Dictionary) (k : String) : Option Value :=
  (d.find? (fun p => p.1 == k)).map (fun p => p.2)

/-- Model of `GuiCommands` (results sent from the worker to the UI),
`src/main.rs` lines 189-195. -/
inductive GuiCommands where
  | NoUsbmuxd (e : IdeviceError)
  | GetDevicesFailure (e : IdeviceError)
  | Devices (m : List (String × UsbmuxdDevice))
  | DeviceInfo (info : List (String × String))
  | IORegistry (d : Option Dictionary)
deriving DecidableEq, Repr

/-- Model of `IdeviceCommands` (commands sent from the UI to the worker),
`src/main.rs` lines 197-208. -/
inductive IdeviceCommands where
  | GetDevices
  | GetDeviceInfo (dev : UsbmuxdDevice)
  | IORegistsry (args : UsbmuxdDevice × Option String × Option String × Option String)
deriving DecidableEq, Repr

/-- Environment of external device-service calls made by the worker.  Each
field models one fallible library call; the worker opens a fresh
connection per operation and retains nothing. -/
structure IdeviceEnv where
  usbmuxdConnect : Except IdeviceError Unit
  get_devices : Except IdeviceError (List UsbmuxdDevice)
  lockdownConnect : UsbmuxdDevice → Except IdeviceError Unit
  get_all_values : UsbmuxdDevice → Except IdeviceError Dictionary
  diagnosticsConnect : UsbmuxdDevice → Except IdeviceError Unit
  ioregistry : UsbmuxdDevice → Option String → Option String → Option String →
      Except IdeviceError (Option Dictionary)

/-- Model of `HashMap::insert`: an existing binding of the key is
overwritten, otherwise the binding is appended. -/
def hashMapInsert (m : List (String × UsbmuxdDevice)) (k : String) (v : UsbmuxdDevice) :
    List (String × UsbmuxdDevice) :=
  if m.any (fun p => p.1 == k) then
    m.map (fun p => if p.1 == k then (k, v) else p)
  else
    m ++ [(k, v)]

/-- Per-device body of the enumeration loop (`src/main.rs` lines 83-108):
connect to lockdown, fetch all values, read `DeviceName`; on any failure
or a missing/non-string name, `continue` (leave the roster unchanged). -/
def enumStep (env : IdeviceEnv) (selections : List (String × UsbmuxdDevice))
    (dev : UsbmuxdDevice) : List (String × UsbmuxdDevice) :=
  match env.lockdownConnect dev with
  | .error _ => selections
  | .ok _ =>
    match env.get_all_values dev with
    | .error _ => selections
    | .ok values =>
      match dictGet values "DeviceName" with
      | some (.string device_name) => hashMapInsert selections device_name dev
      | _ => selections

/-- Roster built by the enumeration loop over the device list. -/
def buildSelections (env : IdeviceEnv) (devs : List UsbmuxdDevice) :
    List (String × UsbmuxdDevice) :=
  devs.foldl (enumStep env) []

/-- Worker arm for `IdeviceCommands::GetDevices`, `src/main.rs` lines
69-116: on usbmuxd connection failure emit `NoUsbmuxd`; on device-list
failure emit `GetDevicesFailure`; otherwise build the roster and emit
`Devices`. -/
def processGetDevices (env : IdeviceEnv) : List GuiCommands :=
  match env.usbmuxdConnect with
  | .error e => [.NoUsbmuxd e]
  | .ok _ =>
    match env.get_devices with
    | .ok devs => [.Devices (buildSelections env devs)]
    | .error e => [.GetDevicesFailure e]

/-- Worker arm for `IdeviceCommands::IORegistsry`, `src/main.rs` lines
117-136: on connect or query failure log and `continue` (emit nothing);
on success emit the optional registry dictionary. -/
def processIORegistsry (env : IdeviceEnv) (dev : UsbmuxdDevice)
    (plane entry cls : Option String) : List GuiCommands :=
  match env.diagnosticsConnect dev with
  | .error _ => []
  | .ok _ =>
    match env.ioregistry dev plane entry cls with
    | .error _ => []
    | .ok res => [.IORegistry res]

/-- Fixed field table of the `GetDeviceInfo` arm, `src/main.rs` lines
158-164: (display label, lockdown key) pairs in display order. -/
def fields : List (String × String) :=
  [("Device Name", "DeviceName"),
   ("Model", "ProductType"),
   ("iOS Version", "ProductVersion"),
   ("Build Number", "BuildVersion"),
   ("UDID", "UniqueDeviceID")]

/-- Worker arm for `IdeviceCommands::GetDeviceInfo`, `src/main.rs` lines
137-175: on connect or fetch failure log and `continue` (emit nothing);
otherwise push one (label, value) pair per table field whose key is
present with a string value, and emit the list. -/
def processGetDeviceInfo (env : IdeviceEnv) (dev : UsbmuxdDevice) : List GuiCommands :=
  match env.lockdownConnect dev with
  | .error _ => []
  | .ok _ =>
    match env.get_all_values dev with
    | .error _ => []
    | .ok values =>
      let device_info := fields.foldl (fun acc dk =>
        match dictGet values dk.2 with
        | some (.string value) => acc ++ [(dk.1, value)]
        | _ => acc) []
      [.DeviceInfo device_info]

/-- Dispatch of one dequeued command, the `match command` of the worker
loop (`src/main.rs` lines 68-176). -/
def processCommand (env : IdeviceEnv) (c : IdeviceCommands) : List GuiCommands :=
  match c with
  | .GetDevices => processGetDevices env
  | .IORegistsry args => processIORegistsry env args.1 args.2.1 args.2.2.1 args.2.2.2
  | .GetDeviceInfo dev => processGetDeviceInfo env dev

/-- Run of the worker loop (`while let Some(command) = recv()`): commands
are dequeued strictly in list order, each executed to completion before
the next is dequeued; `envs i` is the state of the external world when
the i-th command runs.  The emitted result trace is the concatenation of
the per-command emissions. -/
def runWorker (envs : Nat → IdeviceEnv) : Nat → List IdeviceCommands → List GuiCommands
  | _, [] => []
  | i, c :: rest => processCommand (envs i) c ++ runWorker envs (i + 1) rest

/-- Model of the `MyApp` UI-state struct, `src/main.rs` lines 210-230
(the two channel endpoints live outside the state; `class` is renamed
`cls` because `class` is a Lean keyword). -/
structure MyApp where
  devices : Option (List (String × UsbmuxdDevice))
  devices_placeholder : String
  selected_device : String
  device_info : Option (List (String × String))
  current_ioregistry : Option Dictionary
  save_error : Option String
  plane : String
  entry : String
  cls : String
  show_logs : Bool
deriving DecidableEq, Repr

/-- Remediation hint chosen by `cfg!` in the `NoUsbmuxd` arm; the three
platform branches differ only in this text, we model the Linux branch. -/
def install_msg : String :=
  "Make sure usbmuxd is installed and running."

/-- Placeholder text set by the `NoUsbmuxd` arm (`src/main.rs` 246-248). -/
def noUsbmuxdMessage (e : IdeviceError) : String :=
  "Failed to connect to usbmuxd! " ++ install_msg ++ "\n\n" ++ e.detail

/-- Placeholder text set by the `GetDevicesFailure` arm
(`src/main.rs` 253-255). -/
def getDevicesFailureMessage (e : IdeviceError) : String :=
  "Failed to get list of connected devices from usbmuxd! " ++ e.detail

/-- Application of one received result to UI state: the `Ok(msg)` arm of
`gui_recv.try_recv()` in `MyApp::update`, `src/main.rs` lines 236-258. -/
def applyResult (st : MyApp) (msg : GuiCommands) : MyApp :=
  match msg with
  | .NoUsbmuxd e => { st with devices_placeholder := noUsbmuxdMessage e }
  | .Devices v => { st with devices := some v }
  | .DeviceInfo info => { st with device_info := some info }
  | .GetDevicesFailure e => { st with devices_placeholder := getDevicesFailureMessage e }
  | .IORegistry i => { st with current_ioregistry := i }

/-- Application of a sequence of results in arrival order. -/
def applyResults (st : MyApp) (msgs : List GuiCommands) : MyApp :=
  msgs.foldl applyResult st

/-- Possible outcomes of `tokio::sync::mpsc::UnboundedReceiver::try_recv`. -/
inductive TryRecvResult where
  | recvOk (msg : GuiCommands)
  | empty
  | disconnected
deriving Repr

/-- UI-side poll at the top of `MyApp::update`, `src/main.rs` lines
235-265: apply a received result, do nothing when the channel is empty,
and `panic!` (modelled as `none`) when the channel is disconnected. -/
def pollGuiRecv (st : MyApp) (r : TryRecvResult) : Option MyApp :=
  match r with
  | .recvOk msg => some (applyResult st msg)
  | .empty => some st
  | .disconnected => none

/-- Outcome of `UnboundedSender::send`: `sendOk` when the receiver is
alive, `closed` when the receiving half has been dropped. -/
inductive SendResult where
  | sendOk
  | closed
deriving DecidableEq, Repr

/-- Worker-side `gui_sender.send(..).unwrap()` (`src/main.rs` line 110 and
the other send sites): `unwrap` of the send outcome, `none` marking the
panic when the consumer is gone. -/
def sendUnwrap (r : SendResult) : Option Unit :=
  match r with
  | .sendOk => some ()
  | .closed => none

/-- Lookup of the selected device in the roster,
`self.devices.as_ref().and_then(get(selected_device))`
(`src/main.rs` lines 370-374); the filter and save panel is rendered
exactly when this is `some`. -/
def selectedDeviceLookup (st : MyApp) : Option UsbmuxdDevice :=
  st.devices.bind (fun devs =>
    (devs.find? (fun p => p.1 == st.selected_device)).map (fun p => p.2))

/-- Normalization applied inline to each filter field when a registry
command is built: the empty string becomes `none`, anything else `some`. -/
def normalizeFilter (s : String) : Option String :=
  if s.isEmpty then none else some s

/-- Edit handler of the Plane filter field (`src/main.rs` lines 381-403):
the text edit updates `self.plane`; when the response reports a change,
one `IORegistsry` command is sent carrying all three fields, each
normalized by the inline empty-string checks. -/
def planeEdit (st : MyApp) (dev : UsbmuxdDevice) (newText : String) (changed : Bool) :
    MyApp × List IdeviceCommands :=
  let st := { st with plane := newText }
  if changed then
    (st, [.IORegistsry (dev,
        if st.plane.isEmpty then none else some st.plane,
        if st.entry.isEmpty then none else some st.entry,
        if st.cls.isEmpty then none else some st.cls)])
  else (st, [])

/-- Edit handler of the Entry Name filter field (`src/main.rs` lines
409-431), identical in shape to the plane handler. -/
def entryEdit (st : MyApp) (dev : UsbmuxdDevice) (newText : String) (changed : Bool) :
    MyApp × List IdeviceCommands :=
  let st := { st with entry := newText }
  if changed then
    (st, [.IORegistsry (dev,
        if st.plane.isEmpty then none else some st.plane,
        if st.entry.isEmpty then none else some st.entry,
        if st.cls.isEmpty then none else some st.cls)])
  else (st, [])

/-- Edit handler of the Entry Class filter field (`src/main.rs` lines
437-459), identical in shape to the plane handler. -/
def classEdit (st : MyApp) (dev : UsbmuxdDevice) (newText : String) (changed : Bool) :
    MyApp × List IdeviceCommands :=
  let st := { st with cls := newText }
  if changed then
    (st, [.IORegistsry (dev,
        if st.plane.isEmpty then none else some st.plane,
        if st.entry.isEmpty then none else some st.entry,
        if st.cls.isEmpty then none else some st.cls)])
  else (st, [])

/-- Opaque model of `idevice::pretty_print_dictionary` (external crate):
the claims never depend on the rendered text, only on whether a write
happens, so any total rendering suffices. -/
def pretty_print_dictionary (d : Dictionary) : String :=
  toString (repr d)

/-- External effects reached by the Save to File click handler: the file
dialog result and the outcome of `std::fs::write` for a given path and
content. -/
structure SaveEnv where
  dialogResult : Option String
  writeResult : String → String → Except String Unit

/-- Click handler of the Save to File button, `src/main.rs` lines
468-485.  When the dialog yields a path, `save_error` is cleared and
`std::fs::write(p, pretty_print_dictionary(&current_ioregistry.clone().unwrap()))`
runs: the `.unwrap()` panics (modelled as `none`) when
`current_ioregistry` is `None`, before any write.  The returned pair is
the new state and the (path, content) of the attempted write, if any. -/
def saveToFileClick (env : SaveEnv) (st : MyApp) :
    Option (MyApp × Option (String × String)) :=
  match env.dialogResult with
  | none => some (st, none)
  | some p =>
    let st := { st with save_error := none }
    match st.current_ioregistry with
    | none => none
    | some d =>
      let content := pretty_print_dictionary d
      match env.writeResult p content with
      | .ok _ => some (st, some (p, content))
      | .error e => some ({ st with save_error := some e }, some (p, content))

/-- Extraction of the device-info list from a fetched property set (the
loop over `fields` in the `GetDeviceInfo` arm, `src/main.rs` 166-170). -/
def deviceInfoOf (values : Dictionary) : List (String × String) :=
  fields.foldl (fun acc dk =>
    match dictGet values dk.2 with
    | some (.string value) => acc ++ [(dk.1, value)]
    | _ => acc) []

/-- Characterization of the device-info extraction as written in the
spec: traverse the fixed field list in order, keeping a (label, value)
pair exactly when the key is present with a string value. -/
def deviceInfoSpec (values : Dictionary) : List (String × String) :=
  fields.filterMap (fun dk =>
    match dictGet values dk.2 with
    | some (.string value) => some (dk.1, value)
    | _ => none)

/-- Predicate from the enumeration loop: the per-device handshake, the
property fetch and the `DeviceName` string lookup all succeed, so the
device is inserted into the roster. -/
def qualifies (env : IdeviceEnv) (dev : UsbmuxdDevice) : Bool :=
  match env.lockdownConnect dev with
  | .error _ => false
  | .ok _ =>
    match env.get_all_values dev with
    | .error _ => false
    | .ok values =>
      match dictGet values "DeviceName" with
      | some (.string _) => true
      | _ => false

/-- Predicate counting the devices whose property set carries a
string-valued `DeviceName` (observable only when the fetch succeeds). -/
def hasNameProperty (env : IdeviceEnv) (dev : UsbmuxdDevice) : Bool :=
  match env.get_all_values dev with
  | .error _ => false
  | .ok values =>
    match dictGet values "DeviceName" with
    | some (.string _) => true
    | _ => false

/-- Display name a device would be inserted under, when it qualifies. -/
def deviceNameOf (env : IdeviceEnv) (dev : UsbmuxdDevice) : Option String :=
  match env.get_all_values dev with
  | .ok values =>
    match dictGet values "DeviceName" with
    | some (.string n) => some n
    | _ => none
  | .error _ => none

/-- Frame predicate: every `MyApp` field other than the devices
placeholder message agrees between the two states. -/
def sameExceptPlaceholder (st st2 : MyApp) : Prop :=
  st2.devices = st.devices ∧
  st2.selected_device = st.selected_device ∧
  st2.device_info = st.device_info ∧
  st2.current_ioregistry = st.current_ioregistry ∧
  st2.save_error = st.save_error ∧
  st2.plane = st.plane ∧
  st2.entry = st.entry ∧
  st2.cls = st.cls ∧
  st2.show_logs = st.show_logs

/-- Initial UI state built in `main`, `src/main.rs` lines 36-49. -/
def initialApp : MyApp :=
  { devices := none
    devices_placeholder := "Loading..."
    selected_device := ""
    device_info := none
    current_ioregistry := none
    save_error := none
    plane := ""
    entry := ""
    cls := ""
    show_logs := false }

/-- Concrete environment in which every external call fails. -/
def envFail : IdeviceEnv :=
  { usbmuxdConnect := Except.error ⟨"no usbmuxd"⟩
    get_devices := Except.error ⟨"no usbmuxd"⟩
    lockdownConnect := fun _ => Except.error ⟨"no lockdown"⟩
    get_all_values := fun _ => Except.error ⟨"no values"⟩
    diagnosticsConnect := fun _ => Except.error ⟨"no relay"⟩
    ioregistry := fun _ _ _ _ => Except.error ⟨"no registry"⟩ }

/-- Concrete environment in which every external call succeeds, with one
device named iPhone and a one-node registry document. -/
def envOk : IdeviceEnv :=
  { usbmuxdConnect := Except.ok ()
    get_devices := Except.ok [⟨1⟩]
    lockdownConnect := fun _ => Except.ok ()
    get_all_values := fun _ => Except.ok [("DeviceName", Value.string "iPhone")]
    diagnosticsConnect := fun _ => Except.ok ()
    ioregistry := fun _ _ _ _ => Except.ok (some [("Root", Value.string "node")]) }

/-- Concrete environment with two distinct devices that both qualify and
report the same display name, exhibiting the roster name collision. -/
def envCollide : IdeviceEnv :=
  { usbmuxdConnect := Except.ok ()
    get_devices := Except.ok [⟨1⟩, ⟨2⟩]
    lockdownConnect := fun _ => Except.ok ()
    get_all_values := fun _ => Except.ok [("DeviceName", Value.string "iPhone")]
    diagnosticsConnect := fun _ => Except.ok ()
    ioregistry := fun _ _ _ _ => Except.ok none }

/-- UI state with one enumerated device selected but no registry snapshot
fetched yet: exactly the state reached by starting the app, receiving a
successful enumeration, and choosing the device from the combo box. -/
def appWithDeviceNoRegistry : MyApp :=
  { initialApp with
    devices := some [("iPhone", ⟨1⟩)]
    selected_device := "iPhone" }

/-- Save environment in which the user picks a path in the dialog and the
filesystem write would succeed. -/
def saveEnvChoose : SaveEnv :=
  { dialogResult := some "ioreg.plist"
    writeResult := fun _ _ => Except.ok () }

/-- C9: channel termination is fatal on both sides: a UI poll that
observes a disconnected result channel panics (modelled as `none`)
rather than continuing, and a worker-side send whose consumer is gone
panics rather than silently dropping the result. -/
theorem channelTerminationFatal :
    (∀ st : MyApp, pollGuiRecv st TryRecvResult.disconnected = none) ∧
    sendUnwrap SendResult.closed = none :=
  ⟨fun _ => rfl, rfl⟩

/-- C10: applying a NoUsbmuxd or GetDevicesFailure result sets the
devices placeholder to the corresponding formatted message and leaves
every other UI-state field unchanged. -/
theorem failureResultsOnlyTouchPlaceholder (st : MyApp) (e : IdeviceError) :
    (applyResult st (GuiCommands.NoUsbmuxd e)).devices_placeholder = noUsbmuxdMessage e ∧
    (applyResult st (GuiCommands.GetDevicesFailure e)).devices_placeholder =
      getDevicesFailureMessage e ∧
    sameExceptPlaceholder st (applyResult st (GuiCommands.NoUsbmuxd e)) ∧
    sameExceptPlaceholder st (applyResult st (GuiCommands.GetDevicesFailure e)) := by
  refine ⟨rfl, rfl, ?_, ?_⟩ <;>
    exact ⟨rfl, rfl, rfl, rfl, rfl, rfl, rfl, rfl, rfl⟩

/-- C8: each of the three filter-field edit handlers, when the text edit
reports a change, enqueues exactly one IORegistsry command carrying the
current values of all three fields, each normalized so that the empty
string becomes an absent filter. -/
theorem filterEditEnqueuesNormalizedTriple (st : MyApp) (dev : UsbmuxdDevice) (s : String) :
    (planeEdit st dev s true).2 =
      [IdeviceCommands.IORegistsry
        (dev, normalizeFilter s, normalizeFilter st.entry, normalizeFilter st.cls)] ∧
    (entryEdit st dev s true).2 =
      [IdeviceCommands.IORegistsry
        (dev, normalizeFilter st.plane, normalizeFilter s, normalizeFilter st.cls)] ∧
    (classEdit st dev s true).2 =
      [IdeviceCommands.IORegistsry
        (dev, normalizeFilter st.plane, normalizeFilter st.entry, normalizeFilter s)] :=
  ⟨rfl, rfl, rfl⟩

/-- C2 (code bug): with a device enumerated and selected but no registry
snapshot fetched yet, the Save to File control is rendered (the selected
device resolves), the snapshot is absent, and clicking Save with a path
chosen in the dialog reaches the `.unwrap()` on `current_ioregistry`,
which panics (modelled as `none`) instead of being uninvokable or a
no-op that reports an error. -/
theorem saveAbsentRegistryPanics :
    selectedDeviceLookup appWithDeviceNoRegistry = some ⟨1⟩ ∧
    appWithDeviceNoRegistry.current_ioregistry = none ∧
    saveToFileClick saveEnvChoose appWithDeviceNoRegistry = none := by
  refine ⟨?_, rfl, rfl⟩
  decide

/-- C5: a GetDeviceInfo command whose lockdown connection or property
fetch fails emits no result at all, so applying its (empty) emission
leaves the UI state, in particular the device-info panel, unchanged. -/
theorem fetchInfoFailureEmitsNothing (env : IdeviceEnv) (dev : UsbmuxdDevice)
    (h : (∃ e, env.lockdownConnect dev = Except.error e) ∨
         (∃ e, env.get_all_values dev = Except.error e)) :
    processGetDeviceInfo env dev = [] ∧
    ∀ st : MyApp, applyResults st (processGetDeviceInfo env dev) = st := by
  have hempty : processGetDeviceInfo env dev = [] := by
    unfold processGetDeviceInfo
    cases hl : env.lockdownConnect dev with
    | error e => rfl
    | ok u =>
      cases hv : env.get_all_values dev with
      | error e => rfl
      | ok values =>
        rcases h with ⟨e, he⟩ | ⟨e, he⟩
        · rw [hl] at he
          exact absurd he (by simp)
        · rw [hv] at he
          exact absurd he (by simp)
  exact ⟨hempty, fun st => by rw [hempty]; rfl⟩

/-- Witness for C5: the all-failing environment and device 0, applied to
the initial UI state. -/
theorem fetchInfoFailureEmitsNothingWitness :
    processGetDeviceInfo envFail ⟨0⟩ = [] ∧
    applyResults initialApp (processGetDeviceInfo envFail ⟨0⟩) = initialApp := by
  have h := fetchInfoFailureEmitsNothing envFail ⟨0⟩ (Or.inl ⟨⟨"no lockdown"⟩, rfl⟩)
  exact ⟨h.1, h.2 initialApp⟩

/-- C3: a single GetDevices command always emits exactly one result:
NoUsbmuxd exactly when the usbmuxd connection fails, GetDevicesFailure
exactly when the device-list query fails, and one Devices roster
otherwise — never zero results and never more than one. -/
theorem getDevicesExactlyOneResult (env : IdeviceEnv) :
    (processGetDevices env).length = 1 ∧
    ((∃ e, env.usbmuxdConnect = Except.error e ∧
        processGetDevices env = [GuiCommands.NoUsbmuxd e]) ∨
     (∃ e, env.usbmuxdConnect = Except.ok () ∧ env.get_devices = Except.error e ∧
        processGetDevices env = [GuiCommands.GetDevicesFailure e]) ∨
     (∃ devs, env.usbmuxdConnect = Except.ok () ∧ env.get_devices = Except.ok devs ∧
        processGetDevices env = [GuiCommands.Devices (buildSelections env devs)])) := by
  unfold processGetDevices
  cases hu : env.usbmuxdConnect with
  | error e => exact ⟨rfl, Or.inl ⟨e, rfl, rfl⟩⟩
  | ok u =>
    cases u
    cases hd : env.get_devices with
    | error e => exact ⟨rfl, Or.inr (Or.inl ⟨e, rfl, rfl, rfl⟩)⟩
    | ok devs => exact ⟨rfl, Or.inr (Or.inr ⟨devs, rfl, rfl, rfl⟩)⟩

/-- C7: a FetchRegistry command emits exactly one IORegistry result
carrying the optional snapshot when connect and query both succeed,
emits nothing when either fails, and the UI applies an IORegistry
result by direct overwrite of the current snapshot, including
overwriting it with `none`. -/
theorem ioregistryEmitAndOverwrite (env : IdeviceEnv) (dev : UsbmuxdDevice)
    (plane entry cls : Option String) :
    (∀ res, env.diagnosticsConnect dev = Except.ok () →
        env.ioregistry dev plane entry cls = Except.ok res →
        processIORegistsry env dev plane entry cls = [GuiCommands.IORegistry res]) ∧
    (∀ e, env.diagnosticsConnect dev = Except.error e →
        processIORegistsry env dev plane entry cls = []) ∧
    (∀ e, env.diagnosticsConnect dev = Except.ok () →
        env.ioregistry dev plane entry cls = Except.error e →
        processIORegistsry env dev plane entry cls = []) ∧
    (∀ (st : MyApp) (res : Option Dictionary),
        applyResult st (GuiCommands.IORegistry res) =
          { st with current_ioregistry := res }) := by
  refine ⟨?_, ?_, ?_, fun st res => rfl⟩
  · intro res hc hq
    unfold processIORegistsry
    rw [hc, hq]
  · intro e hc
    unfold processIORegistsry
    rw [hc]
  · intro e hc hq
    unfold processIORegistsry
    rw [hc, hq]

/-- Witness for C7: the success case at the all-ok environment and the
connect-failure case at the all-failing environment. -/
theorem ioregistryEmitAndOverwriteWitness :
    processIORegistsry envOk ⟨1⟩ none none none =
      [GuiCommands.IORegistry (some [("Root", Value.string "node")])] ∧
    processIORegistsry envFail ⟨1⟩ none none none = [] :=
  ⟨(ioregistryEmitAndOverwrite envOk ⟨1⟩ none none none).1 _ rfl rfl,
   (ioregistryEmitAndOverwrite envFail ⟨1⟩ none none none).2.1 ⟨"no relay"⟩ rfl⟩

/-- Folding the push-style info extraction over a field list equals the
corresponding filterMap appended to the accumulator. -/
theorem infoFoldEqFilterMap (values : Dictionary) (l : List (String × String)) :
    ∀ acc : List (String × String),
      l.foldl (fun a dk =>
        match dictGet values dk.2 with
        | some (.string value) => a ++ [(dk.1, value)]
        | _ => a) acc
      = acc ++ l.filterMap (fun dk =>
        match dictGet values dk.2 with
        | some (.string value) => some (dk.1, value)
        | _ => none) := by
  induction l with
  | nil =>
    intro acc
    simp
  | cons x xs ih =>
    intro acc
    simp only [List.foldl_cons, List.filterMap_cons]
    cases hx : dictGet values x.2 with
    | none => simpa using ih acc
    | some v =>
      cases v with
      | string s =>
        rw [ih (acc ++ [(x.1, s)])]
        simp
      | integer n => simpa using ih acc
      | boolean b => simpa using ih acc
      | data bs => simpa using ih acc

/-- C6: a successful info fetch emits exactly the ordered (label, value)
pairs obtained by traversing the fixed field list in its declared
order, keeping a pair exactly when the key is present with a string
value; the emitted list depends only on key lookup, not on the order of
the property set. -/
theorem fetchInfoFixedOrder (env : IdeviceEnv) (dev : UsbmuxdDevice) (values : Dictionary)
    (hc : env.lockdownConnect dev = Except.ok ())
    (hv : env.get_all_values dev = Except.ok values) :
    processGetDeviceInfo env dev = [GuiCommands.DeviceInfo (deviceInfoSpec values)] ∧
    fields = [("Device Name", "DeviceName"), ("Model", "ProductType"),
        ("iOS Version", "ProductVersion"), ("Build Number", "BuildVersion"),
        ("UDID", "UniqueDeviceID")] ∧
    ∀ values2 : Dictionary, (∀ k, dictGet values2 k = dictGet values k) →
      deviceInfoSpec values2 = deviceInfoSpec values := by
  refine ⟨?_, rfl, ?_⟩
  · unfold processGetDeviceInfo
    rw [hc, hv]
    have h := infoFoldEqFilterMap values fields []
    simp only [List.nil_append] at h
    simp only [h]
    rfl
  · intro values2 h2
    unfold deviceInfoSpec
    simp only [h2]

/-- Witness for C6 at the all-ok environment, whose property set carries
only the DeviceName key. -/
theorem fetchInfoFixedOrderWitness :
    processGetDeviceInfo envOk ⟨1⟩ =
      [GuiCommands.DeviceInfo [("Device Name", "iPhone")]] ∧
    deviceInfoSpec [("DeviceName", Value.string "iPhone")] = [("Device Name", "iPhone")] := by
  have h := fetchInfoFixedOrder envOk ⟨1⟩ [("DeviceName", Value.string "iPhone")] rfl rfl
  refine ⟨?_, ?_⟩
  · rw [h.1]
    decide
  · decide

/-- Helper: a worker run starting at index i is the in-order
concatenation of the per-command emissions, indexed from i. -/
theorem runWorkerEnumFrom (envs : Nat → IdeviceEnv) (cmds : List IdeviceCommands) :
    ∀ i, runWorker envs i cmds =
      ((cmds.enumFrom i).map (fun p => processCommand (envs p.1) p.2)).flatten := by
  induction cmds with
  | nil =>
    intro i
    rfl
  | cons c rest ih =>
    intro i
    have h1 : runWorker envs i (c :: rest) =
        processCommand (envs i) c ++ runWorker envs (i + 1) rest := rfl
    rw [h1, ih (i + 1)]
    rfl

/-- C1: the worker executes enqueued commands strictly one at a time in
enqueue order — the emitted result trace of any run is the in-order
concatenation of the per-command emissions (each command runs to
completion before the next is dequeued, so results keep the relative
order of their commands on the FIFO channels) — and every single
command emits at most one result. -/
theorem workerFifoSerialized (envs : Nat → IdeviceEnv) (cmds : List IdeviceCommands) :
    runWorker envs 0 cmds =
      ((cmds.enum.map (fun p => processCommand (envs p.1) p.2)).flatten) ∧
    ∀ (env : IdeviceEnv) (c : IdeviceCommands), (processCommand env c).length ≤ 1 := by
  constructor
  · exact runWorkerEnumFrom envs cmds 0
  · intro env c
    cases c with
    | GetDevices =>
      cases hu : env.usbmuxdConnect with
      | error e => simp [processCommand, processGetDevices, hu]
      | ok u =>
        cases hd : env.get_devices with
        | error e => simp [processCommand, processGetDevices, hu, hd]
        | ok devs => simp [processCommand, processGetDevices, hu, hd]
    | GetDeviceInfo dev =>
      cases hl : env.lockdownConnect dev with
      | error e => simp [processCommand, processGetDeviceInfo, hl]
      | ok u =>
        cases hv : env.get_all_values dev with
        | error e => simp [processCommand, processGetDeviceInfo, hl, hv]
        | ok values => simp [processCommand, processGetDeviceInfo, hl, hv]
    | IORegistsry args =>
      cases hc : env.diagnosticsConnect args.1 with
      | error e => simp [processCommand, processIORegistsry, hc]
      | ok u =>
        cases hq : env.ioregistry args.1 args.2.1 args.2.2.1 args.2.2.2 with
        | error e => simp [processCommand, processIORegistsry, hc, hq]
        | ok res => simp [processCommand, processIORegistsry, hc, hq]

/-- Members of a HashMap insert come from the original map or are the
inserted pair. -/
theorem memHashMapInsert (m : List (String × UsbmuxdDevice)) (k : String)
    (v : UsbmuxdDevice) (p : String × UsbmuxdDevice) :
    p ∈ hashMapInsert m k v → p ∈ m ∨ p = (k, v) := by
  intro hp
  unfold hashMapInsert at hp
  split at hp
  · rcases List.mem_map.mp hp with ⟨q, hq, hfq⟩
    by_cases hqk : (q.1 == k) = true
    · right
      simp only [hqk, if_true] at hfq
      exact hfq.symm
    · left
      simp only [hqk, if_false] at hfq
      exact hfq ▸ hq
  · rcases List.mem_append.mp hp with h | h
    · exact Or.inl h
    · right
      simpa using h

/-- Inserting into the roster grows it by at most one entry. -/
theorem lengthHashMapInsert (m : List (String × UsbmuxdDevice)) (k : String)
    (v : UsbmuxdDevice) :
    (hashMapInsert m k v).length ≤ m.length + 1 := by
  unfold hashMapInsert
  split
  · simp
  · simp

/-- Case analysis of one step of the enumeration loop: either the device
does not qualify and the roster is untouched, or it qualifies and is
inserted under its reported name. -/
theorem enumStepCases (env : IdeviceEnv) (acc : List (String × UsbmuxdDevice))
    (dev : UsbmuxdDevice) :
    (qualifies env dev = false ∧ enumStep env acc dev = acc) ∨
    (∃ n, qualifies env dev = true ∧ deviceNameOf env dev = some n ∧
      enumStep env acc dev = hashMapInsert acc n dev) := by
  cases hl : env.lockdownConnect dev with
  | error e =>
    exact Or.inl ⟨by simp [qualifies, hl], by simp [enumStep, hl]⟩
  | ok u =>
    cases hv : env.get_all_values dev with
    | error e =>
      exact Or.inl ⟨by simp [qualifies, hl, hv], by simp [enumStep, hl, hv]⟩
    | ok values =>
      cases hg : dictGet values "DeviceName" with
      | none =>
        exact Or.inl ⟨by simp [qualifies, hl, hv, hg], by simp [enumStep, hl, hv, hg]⟩
      | some v =>
        cases v with
        | string n =>
          exact Or.inr ⟨n, by simp [qualifies, hl, hv, hg],
            by simp [deviceNameOf, hv, hg], by simp [enumStep, hl, hv, hg]⟩
        | integer n =>
          exact Or.inl ⟨by simp [qualifies, hl, hv, hg], by simp [enumStep, hl, hv, hg]⟩
        | boolean b =>
          exact Or.inl ⟨by simp [qualifies, hl, hv, hg], by simp [enumStep, hl, hv, hg]⟩
        | data bs =>
          exact Or.inl ⟨by simp [qualifies, hl, hv, hg], by simp [enumStep, hl, hv, hg]⟩

/-- A qualifying device in particular has the name property present. -/
theorem qualifiesHasNameProperty (env : IdeviceEnv) (dev : UsbmuxdDevice) :
    qualifies env dev = true → hasNameProperty env dev = true := by
  intro h
  cases hl : env.lockdownConnect dev with
  | error e => simp [qualifies, hl] at h
  | ok u =>
    cases hv : env.get_all_values dev with
    | error e => simp [qualifies, hl, hv] at h
    | ok values =>
      cases hg : dictGet values "DeviceName" with
      | none => simp [qualifies, hl, hv, hg] at h
      | some v =>
        cases v with
        | string n => simp [hasNameProperty, hv, hg]
        | integer n => simp [qualifies, hl, hv, hg] at h
        | boolean b => simp [qualifies, hl, hv, hg] at h
        | data bs => simp [qualifies, hl, hv, hg] at h

/-- Every entry of the folded roster comes from the accumulator or from
an enumerated device that qualified, under its reported name. -/
theorem foldlEnumStepMem (env : IdeviceEnv) :
    ∀ (devs : List UsbmuxdDevice) (acc : List (String × UsbmuxdDevice))
      (p : String × UsbmuxdDevice),
      p ∈ devs.foldl (enumStep env) acc →
      p ∈ acc ∨ (p.2 ∈ devs ∧ qualifies env p.2 = true ∧ deviceNameOf env p.2 = some p.1) := by
  intro devs
  induction devs with
  | nil =>
    intro acc p hp
    exact Or.inl hp
  | cons d ds ih =>
    intro acc p hp
    simp only [List.foldl_cons] at hp
    rcases ih (enumStep env acc d) p hp with h | ⟨hmem, hq2, hn2⟩
    · rcases enumStepCases env acc d with ⟨hq, he⟩ | ⟨n, hq, hn, he⟩
      · rw [he] at h
        exact Or.inl h
      · rw [he] at h
        rcases memHashMapInsert acc n d p h with h2 | h2
        · exact Or.inl h2
        · right
          subst h2
          exact ⟨List.mem_cons_self d ds, hq, hn⟩
    · exact Or.inr ⟨List.mem_cons_of_mem d hmem, hq2, hn2⟩

/-- The folded roster has at most one entry per enumerated device whose
property set carries the name property. -/
theorem foldlEnumStepLength (env : IdeviceEnv) :
    ∀ (devs : List UsbmuxdDevice) (acc : List (String × UsbmuxdDevice)),
      (devs.foldl (enumStep env) acc).length ≤
        acc.length + devs.countP (fun d => hasNameProperty env d) := by
  intro devs
  induction devs with
  | nil =>
    intro acc
    simp
  | cons d ds ih =>
    intro acc
    simp only [List.foldl_cons, List.countP_cons]
    rcases enumStepCases env acc d with ⟨hq, he⟩ | ⟨n, hq, hn, he⟩
    · rw [he]
      refine le_trans (ih acc) ?_
      have h1 : ds.countP (fun d => hasNameProperty env d) ≤
          ds.countP (fun d => hasNameProperty env d) +
            (if hasNameProperty env d then 1 else 0) := Nat.le_add_right _ _
      omega
    · rw [he]
      have hp : hasNameProperty env d = true := qualifiesHasNameProperty env d hq
      simp only [hp, if_true]
      refine le_trans (ih (hashMapInsert acc n d)) ?_
      have hl := lengthHashMapInsert acc n d
      omega

/-- Counterexample for C4: two distinct qualifying devices report the
same display name, HashMap insertion overwrites, so device 1 qualifies
and is enumerated yet carries no roster entry — the roster does not
contain exactly the qualifying devices. -/
theorem rosterCollisionCounterexample :
    qualifies envCollide ⟨1⟩ = true ∧
    envCollide.get_devices = Except.ok [⟨1⟩, ⟨2⟩] ∧
    processGetDevices envCollide = [GuiCommands.Devices [("iPhone", ⟨2⟩)]] ∧
    (buildSelections envCollide [⟨1⟩, ⟨2⟩]).all (fun p => p.2 != ⟨1⟩) = true := by
  refine ⟨rfl, rfl, ?_, ?_⟩ <;> decide

/-- C4 (amended): when enumeration succeeds, exactly one Devices result
carries the roster regardless of per-device failures; every roster
entry is an enumerated device that qualified (handshake, property fetch
and string DeviceName lookup all succeeded) inserted under its reported
name, with later qualifying devices overwriting earlier ones on a name
collision; and the roster size is at most the number of enumerated
devices whose property set carries the name property. -/
theorem rosterAmended (env : IdeviceEnv) (devs : List UsbmuxdDevice)
    (hu : env.usbmuxdConnect = Except.ok ())
    (hd : env.get_devices = Except.ok devs) :
    processGetDevices env = [GuiCommands.Devices (buildSelections env devs)] ∧
    (∀ p ∈ buildSelections env devs,
        p.2 ∈ devs ∧ qualifies env p.2 = true ∧ deviceNameOf env p.2 = some p.1) ∧
    (buildSelections env devs).length ≤
      (devs.filter (fun d => hasNameProperty env d)).length := by
  refine ⟨?_, ?_, ?_⟩
  · unfold processGetDevices
    rw [hu, hd]
  · intro p hp
    rcases foldlEnumStepMem env devs [] p hp with h | h
    · simp at h
    · exact h
  · have h := foldlEnumStepLength env devs []
    simpa [List.countP_eq_length_filter] using h

/-- Witness for C4 (amended) at the collision environment. -/
theorem rosterAmendedWitness :
    processGetDevices envCollide =
      [GuiCommands.Devices (buildSelections envCollide [⟨1⟩, ⟨2⟩])] ∧
    (buildSelections envCollide [⟨1⟩, ⟨2⟩]).length ≤
      ([⟨1⟩, ⟨2⟩].filter (fun d => hasNameProperty envCollide d)).length := by
  have h := rosterAmended envCollide [⟨1⟩, ⟨2⟩] rfl rfl
  exact ⟨h.1, h.2.2⟩

end IoregExplorer
